import Mathlib

/-!
# Verification of the png2jpg.co image-conversion core

A shallow embedding of `src/lib/services/ImageConverter.ts` and the
record-handling loop of `src/lib/components/ImageConverter.svelte`.

Conventions of the embedding:
* A browser `File` is its observable triple (name, declared media type, size);
  the raw bytes are abstracted into the platform environment's decode judgment.
* The platform (image decoder, canvas encoder, `FileReader`) is an explicit
  `Env` record of functions; `Option`/`Except` model asynchronous failure.
* `URL.createObjectURL` / object-URL lifetime is modelled by explicit state
  passing of a `UrlState` (a counter and the list of live, unreleased handles).
* JavaScript's `||` on strings (falsy = empty string) is modelled by `jsOr`.
* Canvas 2D drawing is modelled as the trace of drawing operations issued on
  the surface (`CanvasOp`), faithful to the calls made in `setupCanvas`.
-/

/-- A browser `File` as observed by the converter: `name`, declared media
type (`type`), and byte size. -/
structure JsFile where
  name : String
  type : String
  size : Nat
deriving DecidableEq, Repr

/-- The union `ImageFormat = png | jpg | jpeg | webp` from ImageConverter.ts. -/
inductive ImageFormat where
  | png | jpg | jpeg | webp
deriving DecidableEq, Repr

/-- The literal string value of an `ImageFormat` member of the TS union. -/
def ImageFormat.str : ImageFormat → String
  | .png => "png"
  | .jpg => "jpg"
  | .jpeg => "jpeg"
  | .webp => "webp"

/-- The `ConvertedFile` tracking record of ImageConverter.ts. -/
structure ConvertedFile where
  id : String
  originalFile : JsFile
  originalUrl : String
  convertedUrl : String
  filename : String
  isConverting : Bool
  sourceFormat : String
  targetFormat : ImageFormat
  originalSize : Nat
  convertedSize : Nat
deriving DecidableEq, Repr

/-- Source `SUPPORTED_INPUT_FORMATS` (media-type allow-list) from ImageConverter.ts. -/
def SUPPORTED_INPUT_FORMATS : List String :=
  ["image/png", "image/jpeg", "image/jpg", "image/webp", "image/gif",
   "image/svg+xml", "image/x-icon", "image/vnd.microsoft.icon",
   "image/tiff", "image/avif"]

/-- Source `SUPPORTED_EXTENSIONS` (extension allow-list) from ImageConverter.ts. -/
def SUPPORTED_EXTENSIONS : List String :=
  ["png", "jpg", "jpeg", "gif", "webp", "svg", "ico", "tiff", "avif"]

/-- Source `MIME_TO_EXT` lookup table from ImageConverter.ts, as an association
list (JS object indexing with a missing key yields `undefined`, i.e.
`List.lookup` yielding `none`). -/
def MIME_TO_EXT : List (String × String) :=
  [("image/jpeg", "jpg"), ("image/jpg", "jpg"), ("image/png", "png"),
   ("image/webp", "webp"), ("image/gif", "gif"), ("image/svg+xml", "svg"),
   ("image/x-icon", "ico"), ("image/vnd.microsoft.icon", "ico"),
   ("image/tiff", "tiff"), ("image/avif", "avif")]

/-- JavaScript `a || b` on strings: `a` when truthy (non-empty), else `b`. -/
def jsOr (a b : String) : String := if a = "" then b else a

/-- JS `split` with a one-character separator, by structural recursion on the
character list (JS `"".split('.')` is `[""]`, so the empty list of
characters maps to one empty component). -/
def splitOnChar (sep : Char) : List Char → List (List Char)
  | [] => [[]]
  | c :: cs =>
    match splitOnChar sep cs with
    | [] => [[c]]
    | r :: rs => if c = sep then [] :: r :: rs else (c :: r) :: rs

/-- JS `name.split('.')` as a list of strings. -/
def jsSplitDot (s : String) : List String :=
  (splitOnChar '.' s.data).map List.asString

/-- JS `toLowerCase()`, character-wise (all strings compared against the
allow-lists are ASCII, where `Char.toLower` agrees with JS). -/
def strToLower (s : String) : String :=
  (s.data.map Char.toLower).asString

/-- JavaScript `o || b` where `o : String | undefined`. -/
def jsOrOpt (o : Option String) (b : String) : String :=
  match o with
  | none => b
  | some s => jsOr s b

/-- JS `file.name.split of dot .pop()?.toLowerCase()` — the last dot-separated
component of the name, lowercased.  JS `split` always returns a non-empty
array, so `pop()` is never `undefined` here (hence no `Option`). -/
def jsPopExt (name : String) : String :=
  strToLower ((jsSplitDot name).getLastD "")

/-- Source `doesSupportFileType` from ImageConverter.ts: media type in the
allow-list, else lowercased last name component in the extension allow-list
(the source's trailing `ext || ''` only maps `undefined` to `''`, and
`split().pop()` never yields `undefined`, so it is the identity here). -/
def doesSupportFileType (file : JsFile) : Bool :=
  if SUPPORTED_INPUT_FORMATS.contains file.type then
    true
  else
    SUPPORTED_EXTENSIONS.contains (jsPopExt file.name)

/-- Source `filterSupportedFiles` from ImageConverter.ts: `Array.from(fileList)`
followed by `.filter(doesSupportFileType)` (logging elided). -/
def filterSupportedFiles (fileList : List JsFile) : List JsFile :=
  fileList.filter (fun file => doesSupportFileType file)

/-- Source `getFileExtension` from ImageConverter.ts:
`MIME_TO_EXT[mimeType] || 'unknown'`. -/
def getFileExtension (mimeType : String) : String :=
  jsOrOpt (MIME_TO_EXT.lookup mimeType) "unknown"

/-- The regex replace in `createConvertedFileRecord` stripping a final dot-plus-nonempty,
dot-free extension if present.  On the `.`-split of the name the regex
matches exactly when there are at least two components and the last one is
non-empty; the replacement drops that last component and the dot before it. -/
def baseFilename (name : String) : String :=
  let parts := jsSplitDot name
  if 2 ≤ parts.length ∧ parts.getLastD "" ≠ "" then
    String.intercalate "." parts.dropLast
  else
    name

/-- Object-URL registry state: a fresh-name counter and the list of live
(allocated and not yet revoked) handles, in allocation order. -/
structure UrlState where
  counter : Nat
  live : List String
deriving DecidableEq, Repr

/-- The handle string produced for the `n`-th allocation. -/
def mkUrl (n : Nat) : String := "blob:obj-" ++ toString n

/-- Platform `URL.createObjectURL`: returns a fresh handle and records it live. -/
def createObjectURL (s : UrlState) : String × UrlState :=
  (mkUrl s.counter, { counter := s.counter + 1, live := s.live ++ [mkUrl s.counter] })

/-- Source `createConvertedFileRecord` from ImageConverter.ts.  `generateId` is
`Math.random`-based, so the fresh identifier is a parameter; the call to
`URL.createObjectURL(file)` threads the registry state. -/
def createConvertedFileRecord (id : String) (file : JsFile) (targetFormat : ImageFormat)
    (s : UrlState) : ConvertedFile × UrlState :=
  let (originalUrl, s') := createObjectURL s
  let sourceFormat :=
    jsOr (getFileExtension file.type) (jsOr (jsPopExt file.name) "unknown")
  let filename := baseFilename file.name ++ "." ++ targetFormat.str
  ({ id := id
     originalFile := file
     originalUrl := originalUrl
     convertedUrl := ""
     filename := filename
     isConverting := true
     sourceFormat := sourceFormat
     targetFormat := targetFormat
     originalSize := file.size
     convertedSize := 0 }, s')

/-- A decoded drawable bitmap (`HTMLImageElement` after a successful load):
its pixel dimensions, plus an opaque content tag distinguishing bitmaps. -/
structure Bitmap where
  width : Nat
  height : Nat
  content : Nat
deriving DecidableEq, Repr

/-- What the platform image decoder is pointed at: the original file's bytes
(non-SVG path) or a fresh blob holding the SVG text (SVG path). -/
inductive DecodeSrc where
  | file (f : JsFile)
  | svgBlob (text : String)
deriving DecidableEq, Repr

/-- An encoded blob as observed by the converter: byte size and media type. -/
structure JsBlob where
  size : Nat
  type : String
deriving DecidableEq, Repr

/-- One drawing call issued on the canvas 2D context.  `drawImage` is the
three-argument form `drawImage(img, dx, dy)`, which never scales. -/
inductive CanvasOp where
  | fillRect (style : String) (x y w h : Nat)
  | drawImage (img : Bitmap) (dx dy : Nat)
deriving DecidableEq, Repr

/-- A canvas: its dimensions and the trace of drawing calls issued on it. -/
structure Canvas where
  width : Nat
  height : Nat
  ops : List CanvasOp
deriving DecidableEq, Repr

/-- The platform capabilities `convertImage` calls into. -/
structure Env where
  /-- image decode: `some` bitmap on `onload`, `none` on `onerror`. -/
  decode : DecodeSrc → Option Bitmap
  /-- Platform `FileReader.readAsText`: the file text, or `none` on a read error. -/
  readText : JsFile → Option String
  /-- Platform `canvas.toBlob(mime, quality)`: `none` models a `null` blob. -/
  encode : Canvas → String → Nat → Option JsBlob
  /-- whether `canvas.getContext('2d')` returns a context. -/
  ctx2d : Bool

/-- The failure cases of the conversion pipeline (`ConversionError`). -/
inductive ConvError where
  | svgReadFailed (filename : String)
  | loadFailed (filename : String)
  | encodeFailed
deriving DecidableEq, Repr

/-- The result of a successful `convertImage`: `{ url, size }`. -/
structure ConvResult where
  url : String
  size : Nat
deriving DecidableEq, Repr

/-- Whether a promise modelled as an `Except` was rejected. -/
def exceptIsError {ε α : Type} : Except ε α → Bool
  | Except.error _ => true
  | Except.ok _ => false

/-- Whether a promise modelled as an `Except` was fulfilled. -/
def exceptIsOk {ε α : Type} : Except ε α → Bool
  | Except.error _ => false
  | Except.ok _ => true

/-- Source `getFormatConfig` from ImageConverter.ts.  The quality values
are floats on a 0–1 scale (1 for png, 0.9 otherwise); they are scaled by
100 to a `Nat` percentage here. -/
def getFormatConfig : ImageFormat → String × Nat
  | .png => ("image/png", 100)
  | .webp => ("image/webp", 90)
  | .jpg | .jpeg => ("image/jpeg", 90)

/-- Source `setupCanvas` from ImageConverter.ts: size the canvas to the image, and
when a 2D context is available, fill with white first for `jpg`/`jpeg`, then
`drawImage(img, 0, 0)` (the `if (ctx)` guard of the source is the
`ctxAvailable` argument). -/
def setupCanvas (ctxAvailable : Bool) (img : Bitmap) (targetFormat : ImageFormat) : Canvas :=
  let w := img.width
  let h := img.height
  if ctxAvailable then
    { width := w, height := h
      ops := (if targetFormat = .jpg ∨ targetFormat = .jpeg then
                [CanvasOp.fillRect "#FFFFFF" 0 0 w h]
              else []) ++ [CanvasOp.drawImage img 0 0] }
  else
    { width := w, height := h, ops := [] }

/-- Source `loadImage` from ImageConverter.ts.  For `image/svg+xml` the file is
read as text and wrapped in a typed blob first; either way a transient
object URL is created and assigned to `img.src` (it is never revoked), and
the platform decoder resolves or rejects the promise. -/
def loadImage (env : Env) (file : JsFile) (s : UrlState) :
    Except ConvError Bitmap × UrlState :=
  if file.type = "image/svg+xml" then
    match env.readText file with
    | none => (Except.error (ConvError.svgReadFailed file.name), s)
    | some svgString =>
      let (_, s') := createObjectURL s
      match env.decode (DecodeSrc.svgBlob svgString) with
      | some img => (Except.ok img, s')
      | none => (Except.error (ConvError.loadFailed file.name), s')
  else
    let (_, s') := createObjectURL s
    match env.decode (DecodeSrc.file file) with
    | some img => (Except.ok img, s')
    | none => (Except.error (ConvError.loadFailed file.name), s')

/-- Source `convertImage` from ImageConverter.ts: load, set up the canvas, encode
with the format's mime/quality, wrap the blob in a fresh object URL, and
return `{ url, size }`.  The `catch` block of the source only logs and
rethrows, so errors propagate unchanged. -/
def convertImage (env : Env) (file : JsFile) (targetFormat : ImageFormat)
    (s : UrlState) : Except ConvError ConvResult × UrlState :=
  match loadImage env file s with
  | (Except.error e, s') => (Except.error e, s')
  | (Except.ok img, s') =>
    let canvas := setupCanvas env.ctx2d img targetFormat
    let cfg := getFormatConfig targetFormat
    match env.encode canvas cfg.1 cfg.2 with
    | none => (Except.error ConvError.encodeFailed, s')
    | some blob =>
      let (url, s'') := createObjectURL s'
      (Except.ok { url := url, size := blob.size }, s'')

/-- The loop body of `handleFiles` in ImageConverter.svelte for one admitted
file: create the tracking record, append it, convert; on success update the
matching record's `convertedUrl`/`convertedSize`/`isConverting` in place, on
failure filter the record out. -/
def processFile (env : Env) (targetFormat : ImageFormat) (id : String)
    (files : List ConvertedFile) (s : UrlState) (file : JsFile) :
    List ConvertedFile × UrlState :=
  let convertedFile := (createConvertedFileRecord id file targetFormat s).1
  let files1 := files ++ [convertedFile]
  match convertImage env file targetFormat (createConvertedFileRecord id file targetFormat s).2 with
  | (Except.ok result, s2) =>
    (files1.map (fun f =>
      if f.id = convertedFile.id then
        { f with convertedUrl := result.url, convertedSize := result.size,
                 isConverting := false }
      else f), s2)
  | (Except.error _, s2) =>
    (files1.filter (fun f => f.id ≠ convertedFile.id), s2)

/-- The environment `downloadFile` calls into: `fetch(url)` followed by
`response.blob()`, collapsed into one fallible step (both sit inside the
`try` block). -/
structure DlEnv where
  fetchBlob : String → Except String JsBlob

/-- The externally visible outcome of `downloadFile`: a triggered save, or
a failure that was caught and only logged. -/
inductive DlOutcome where
  | saved (filename : String)
  | failedLogged (msg : String)
deriving DecidableEq, Repr

/-- The DOM/URL actions `downloadFile` performs after the fetch. -/
inductive DlAction where
  | createUrl (u : String)
  | appendAnchor
  | clickAnchor
  | removeAnchor
  | revokeUrl (u : String)
deriving DecidableEq, Repr

/-- Source `downloadFile` from ImageConverter.ts.  The whole body sits in a
`try`/`catch` whose handler only logs, so the returned promise is modelled
as an `Except` that the function itself always fulfils with `ok`.  On the
success path it creates an object URL for the refetched blob (never
revoking it), appends a transient anchor, clicks it, and removes it. -/
def downloadFile (env : DlEnv) (file : ConvertedFile) (s : UrlState) :
    (Except String DlOutcome × UrlState) × List DlAction :=
  match env.fetchBlob file.convertedUrl with
  | Except.error e =>
    ((Except.ok (DlOutcome.failedLogged e), s), [])
  | Except.ok _ =>
    let (url, s') := createObjectURL s
    ((Except.ok (DlOutcome.saved file.filename), s'),
     [DlAction.createUrl url, DlAction.appendAnchor, DlAction.clickAnchor,
      DlAction.removeAnchor])

/-! ## Spec-side characterizations

State-free descriptions of the pipeline stages, written to the spec's
sentences, for comparison with the stateful source embedding above. -/

/-- Outcome of the decode stage alone: for SVG input, read the text and
decode the wrapped blob (a read failure decodes nothing); otherwise decode
the file's own bytes. -/
def decodedBitmap (env : Env) (file : JsFile) : Option Bitmap :=
  if file.type = "image/svg+xml" then
    match env.readText file with
    | none => none
    | some t => env.decode (DecodeSrc.svgBlob t)
  else
    env.decode (DecodeSrc.file file)

/-- Outcome of decode-then-encode: the blob the platform encoder produces
from the surface built for the decoded bitmap, when both stages succeed. -/
def encodedBlob (env : Env) (file : JsFile) (targetFormat : ImageFormat) : Option JsBlob :=
  match decodedBitmap env file with
  | none => none
  | some img =>
    env.encode (setupCanvas env.ctx2d img targetFormat)
      (getFormatConfig targetFormat).1 (getFormatConfig targetFormat).2

/-- Spec-side per-format transparency capability (§9 of the spec): png and
webp keep an alpha channel, jpg/jpeg are encoded opaque. -/
def formatSupportsAlpha : ImageFormat → Bool
  | .png => true
  | .webp => true
  | .jpg => false
  | .jpeg => false

/-- Spec-side conventional filename extension: the lowercased part after
the last dot, when the name contains a dot followed by a non-empty dot-free
tail; absent (`none`) otherwise — in particular absent for a dotless name. -/
def specFilenameExtension (name : String) : Option String :=
  let parts := jsSplitDot name
  if 2 ≤ parts.length ∧ parts.getLastD "" ≠ "" then
    some (strToLower (parts.getLastD ""))
  else
    none

/-! ## The caller's tracking-record state machine

The transitions `handleFiles`, `removeFile` and `clearAll` in
ImageConverter.svelte perform on the `files` list. -/

/-- One mutation of the caller's record list: admitting a file appends a
fresh record; a resolved conversion either updates the matching record
(success) or filters it out (failure/removal, which is also the shape of
`removeFile`; `clearAll` is `discard` of each id in turn plus the empty
list being reachable). -/
inductive RecStep (env : Env) : List ConvertedFile → List ConvertedFile → Prop
  | admitted (files : List ConvertedFile) (file : JsFile) (targetFormat : ImageFormat)
      (id : String) (s : UrlState) :
      RecStep env files (files ++ [(createConvertedFileRecord id file targetFormat s).1])
  | convertSuccess (files : List ConvertedFile) (file : JsFile)
      (targetFormat : ImageFormat) (s s' : UrlState) (i : String) (r : ConvResult)
      (hok : convertImage env file targetFormat s = (Except.ok r, s')) :
      RecStep env files (files.map (fun f =>
        if f.id = i then
          { f with convertedUrl := r.url, convertedSize := r.size, isConverting := false }
        else f))
  | discard (files : List ConvertedFile) (i : String) :
      RecStep env files (files.filter (fun f => f.id ≠ i))

/-- Record-list states reachable from the initial empty list. -/
inductive ReachableFiles (env : Env) : List ConvertedFile → Prop
  | nil : ReachableFiles env []
  | step {files files' : List ConvertedFile} :
      ReachableFiles env files → RecStep env files files' → ReachableFiles env files'

/-- A platform environment in which every decode and encode succeeds. -/
def envAllOk : Env :=
  { decode := fun _ => some { width := 2, height := 2, content := 0 }
    readText := fun _ => some "<svg/>"
    encode := fun _ _ _ => some { size := 9, type := "image/png" }
    ctx2d := true }

/-- A platform environment whose image decoder always rejects. -/
def envDecodeFail : Env :=
  { decode := fun _ => none
    readText := fun _ => some "<svg/>"
    encode := fun _ _ _ => none
    ctx2d := true }

/-- A download environment whose fetch always succeeds. -/
def dlEnvOk : DlEnv :=
  { fetchBlob := fun _ => Except.ok { size := 7, type := "image/jpeg" } }

/-- A fully-converted tracking record, mirroring the repo's test fixture. -/
def sampleRecord : ConvertedFile :=
  { id := "test-id"
    originalFile := { name := "test.png", type := "image/png", size := 1000 }
    originalUrl := "original-url"
    convertedUrl := "converted-url"
    filename := "test.jpg"
    isConverting := false
    sourceFormat := "png"
    targetFormat := ImageFormat.jpg
    originalSize := 1000
    convertedSize := 800 }

-- sanity checks against the repo's own unit tests
example : doesSupportFileType ⟨"test.png", "image/png", 0⟩ = true := by decide
example : doesSupportFileType ⟨"test.txt", "text/plain", 0⟩ = false := by decide
example : doesSupportFileType ⟨"test.webp", "", 0⟩ = true := by decide
example : doesSupportFileType ⟨"test.exe", "", 0⟩ = false := by decide
example :
    (createConvertedFileRecord "i" ⟨"test-image.png", "image/png", 12⟩ .jpg ⟨0, []⟩).1.filename
      = "test-image.jpg" := by decide
example :
    (createConvertedFileRecord "i" ⟨"test-image", "image/png", 12⟩ .webp ⟨0, []⟩).1.sourceFormat
      = "png" := by decide
example :
    (createConvertedFileRecord "i" ⟨"test.xyz", "", 12⟩ .jpg ⟨0, []⟩).1.sourceFormat
      = "unknown" := by decide

/-! ## Helper lemmas -/

/-- Generated object-URL handles are never the empty string. -/
theorem mkUrl_ne_empty (n : Nat) : mkUrl n ≠ "" := by
  intro h
  have h9 : ("blob:obj-".length : Nat) ≤ (mkUrl n).length := by
    unfold mkUrl
    rw [String.length_append]
    exact Nat.le_add_right _ _
  rw [h] at h9
  simp [String.length] at h9

/-- Complete characterization of `loadImage`: an SVG text-read failure
leaves the registry untouched; every other path allocates the one transient
source handle, and the promise outcome is `decodedBitmap`. -/
theorem loadImage_eq (env : Env) (file : JsFile) (s : UrlState) :
    loadImage env file s =
      if file.type = "image/svg+xml" ∧ env.readText file = none then
        (Except.error (ConvError.svgReadFailed file.name), s)
      else
        ((match decodedBitmap env file with
          | some img => Except.ok img
          | none => Except.error (ConvError.loadFailed file.name)),
         { counter := s.counter + 1, live := s.live ++ [mkUrl s.counter] }) := by
  unfold loadImage createObjectURL decodedBitmap
  by_cases hsvg : file.type = "image/svg+xml"
  · cases hrt : env.readText file with
    | none => simp [hsvg, hrt]
    | some svgString =>
      cases hdec : env.decode (DecodeSrc.svgBlob svgString) with
      | none => simp [hsvg, hrt, hdec]
      | some img => simp [hsvg, hrt, hdec]
  · cases hdec : env.decode (DecodeSrc.file file) with
    | none => simp [hsvg, hdec]
    | some img => simp [hsvg, hdec]

/-- A successful decode advances the URL registry by exactly the one
transient source handle, which stays live. -/
theorem loadImage_ok_state {env : Env} {file : JsFile} {s : UrlState}
    {img : Bitmap} {s₁ : UrlState}
    (h : loadImage env file s = (Except.ok img, s₁)) :
    s₁ = { counter := s.counter + 1, live := s.live ++ [mkUrl s.counter] } := by
  rw [loadImage_eq] at h
  by_cases hc : file.type = "image/svg+xml" ∧ env.readText file = none
  · rw [if_pos hc] at h
    exact absurd (congrArg Prod.fst h) (by simp)
  · rw [if_neg hc] at h
    exact (congrArg Prod.snd h).symm

/-- A successful decode yields exactly the bitmap of the state-free
characterization. -/
theorem loadImage_ok_bitmap {env : Env} {file : JsFile} {s : UrlState}
    {img : Bitmap} {s₁ : UrlState}
    (h : loadImage env file s = (Except.ok img, s₁)) :
    decodedBitmap env file = some img := by
  rw [loadImage_eq] at h
  by_cases hc : file.type = "image/svg+xml" ∧ env.readText file = none
  · rw [if_pos hc] at h
    exact absurd (congrArg Prod.fst h) (by simp)
  · rw [if_neg hc] at h
    have h1 := congrArg Prod.fst h
    cases hdec : decodedBitmap env file <;> rw [hdec] at h1 <;> simp at h1
    rw [h1]

/-- Shape of every successful conversion: the transient decode-source
handle and the result handle are allocated, in that order, and both stay
live; the result URL is the second of the two. -/
theorem convertImage_ok_shape {env : Env} {file : JsFile} {t : ImageFormat}
    {s : UrlState} {r : ConvResult} {s' : UrlState}
    (hok : convertImage env file t s = (Except.ok r, s')) :
    r.url = mkUrl (s.counter + 1) ∧
    s'.live = s.live ++ [mkUrl s.counter, mkUrl (s.counter + 1)] ∧
    s'.counter = s.counter + 2 := by
  unfold convertImage at hok
  split at hok
  next e s₁ heq =>
    exact absurd hok (by simp)
  next img s₁ heq =>
    have hs₁ := loadImage_ok_state heq
    dsimp only at hok
    split at hok
    next henc =>
      exact absurd hok (by simp)
    next blob henc =>
      unfold createObjectURL at hok
      simp only [Prod.mk.injEq, Except.ok.injEq] at hok
      obtain ⟨hr, hs'⟩ := hok
      subst hs₁
      simp [← hr, ← hs']

/-- The conversion promise rejects exactly when the state-free pipeline
produces no encoded blob (decode failure, SVG read failure, or a `null`
blob from the encoder). -/
theorem convertImage_fst_isError (env : Env) (file : JsFile) (t : ImageFormat)
    (s : UrlState) :
    exceptIsError (convertImage env file t s).1 = true ↔ encodedBlob env file t = none := by
  unfold convertImage encodedBlob
  rw [loadImage_eq]
  by_cases hc : file.type = "image/svg+xml" ∧ env.readText file = none
  · rw [if_pos hc]
    have hdec : decodedBitmap env file = none := by
      unfold decodedBitmap
      simp [hc.1, hc.2]
    simp [hdec, exceptIsError]
  · rw [if_neg hc]
    cases hdec : decodedBitmap env file with
    | none => simp [hdec, exceptIsError]
    | some img =>
      cases henc : env.encode (setupCanvas env.ctx2d img t)
          (getFormatConfig t).1 (getFormatConfig t).2 with
      | none => simp [hdec, henc, exceptIsError]
      | some blob => simp [hdec, henc, exceptIsError]

/-- Whether a conversion fails does not depend on the URL-registry state. -/
theorem convertImage_isError_state_indep (env : Env) (file : JsFile)
    (t : ImageFormat) (s s₀ : UrlState) :
    exceptIsError (convertImage env file t s).1 = exceptIsError (convertImage env file t s₀).1 := by
  by_cases h : encodedBlob env file t = none
  · rw [(convertImage_fst_isError env file t s).mpr h,
        (convertImage_fst_isError env file t s₀).mpr h]
  · have h1 := (convertImage_fst_isError env file t s).not
    have h2 := (convertImage_fst_isError env file t s₀).not
    rcases hb : exceptIsError (convertImage env file t s).1 with _ | _
      <;> rcases hb0 : exceptIsError (convertImage env file t s₀).1 with _ | _
    · rfl
    · exact absurd ((convertImage_fst_isError env file t s₀).mp hb0) h
    · exact absurd ((convertImage_fst_isError env file t s).mp hb) h
    · rfl

/-! ## Claim theorems -/

/-- C2 (counterexample): a file whose name is a bare allowed extension word
with no dot — so its conventional filename extension is absent — and whose
declared media type is unsupported is nevertheless accepted, because the
source takes the last dot-separated component of the name, which for a
dotless name is the whole name. -/
theorem doesSupportFileType_dotless_counterexample :
    specFilenameExtension "png" = none ∧
    SUPPORTED_INPUT_FORMATS.contains "text/plain" = false ∧
    doesSupportFileType { name := "png", type := "text/plain", size := 3 } = true := by
  decide

/-- C2 (amended): `doesSupportFileType` returns true iff the declared media
type is in the media-type allow-list, or the last dot-separated component of
the filename (the whole name when it has no dot), lowercased, is in the
extension allow-list. -/
theorem doesSupportFileType_characterization (file : JsFile) :
    doesSupportFileType file = true ↔
      file.type ∈ SUPPORTED_INPUT_FORMATS ∨ jsPopExt file.name ∈ SUPPORTED_EXTENSIONS := by
  unfold doesSupportFileType
  by_cases hm : SUPPORTED_INPUT_FORMATS.contains file.type
  · simp [hm, List.elem_iff.mp hm]
  · simp only [if_neg hm]
    rw [List.elem_iff]
    simp only [List.elem_iff] at hm
    simp [hm]

/-- C3: for every decoded bitmap and target format (with the 2D context
available, which is the only case in which the source draws at all), the
surface is sized exactly to the bitmap, it is first filled entirely with
opaque white exactly for the non-alpha formats jpg/jpeg and left untouched
(transparent) for png/webp, and the bitmap is then drawn last at the origin
with the non-scaling three-argument `drawImage`. -/
theorem setupCanvas_spec (img : Bitmap) (t : ImageFormat) :
    (setupCanvas true img t).width = img.width ∧
    (setupCanvas true img t).height = img.height ∧
    (setupCanvas true img t).ops =
      (if formatSupportsAlpha t = false then
        [CanvasOp.fillRect "#FFFFFF" 0 0 img.width img.height]
      else []) ++ [CanvasOp.drawImage img 0 0] := by
  cases t <;> simp [setupCanvas, formatSupportsAlpha]

/-- C4: when the declared media type is not a key of `MIME_TO_EXT` (the
empty type included), the record's `sourceFormat` is the sentinel
`"unknown"`, with no fallback to the filename extension: `getFileExtension`
already returns the truthy string `"unknown"`, short-circuiting the
JavaScript or-chain. -/
theorem createConvertedFileRecord_unknown_sourceFormat
    (id : String) (file : JsFile) (t : ImageFormat) (s : UrlState)
    (h : MIME_TO_EXT.lookup file.type = none) :
    ((createConvertedFileRecord id file t s).1).sourceFormat = "unknown" := by
  unfold createConvertedFileRecord getFileExtension
  rw [h]
  unfold jsOrOpt jsOr
  rw [if_neg (by decide : ¬("unknown" : String) = "")]

/-- C4 (witness): a file with an empty media type and a recognized `.png`
extension still gets `sourceFormat = "unknown"`. -/
theorem createConvertedFileRecord_unknown_sourceFormat_witness :
    MIME_TO_EXT.lookup "" = none ∧
    ((createConvertedFileRecord "id0" { name := "photo.png", type := "", size := 100 }
        ImageFormat.jpg { counter := 0, live := [] }).1).sourceFormat = "unknown" :=
  ⟨by decide,
   createConvertedFileRecord_unknown_sourceFormat "id0"
     { name := "photo.png", type := "", size := 100 } ImageFormat.jpg
     { counter := 0, live := [] } (by decide)⟩

/-- C5 (counterexample): for target format jpeg the output filename ends in
`.jpeg`, not in the canonical `.jpg` the claim requires: the source appends
the literal enumeration value. -/
theorem createConvertedFileRecord_jpeg_filename_counterexample :
    ((createConvertedFileRecord "id0" { name := "a.png", type := "image/png", size := 10 }
        ImageFormat.jpeg { counter := 0, live := [] }).1).filename = "a.jpeg" ∧
    ((createConvertedFileRecord "id0" { name := "a.png", type := "image/png", size := 10 }
        ImageFormat.jpeg { counter := 0, live := [] }).1).filename ≠ "a.jpg" := by
  decide

/-- C5 (amended): the output filename is the original base name (trailing
extension stripped, if any) followed by a dot and the target format's
literal enumeration name — so jpeg yields a filename ending in `.jpeg`,
not `.jpg`. -/
theorem createConvertedFileRecord_filename (id : String) (file : JsFile)
    (t : ImageFormat) (s : UrlState) :
    ((createConvertedFileRecord id file t s).1).filename
      = baseFilename file.name ++ "." ++ t.str := rfl

/-- C6: `filterSupportedFiles` returns exactly the subsequence of its input
satisfying `doesSupportFileType`, in the original relative order, and is
idempotent.  (The embedding is pure, mirroring that the source builds a new
array and leaves the input collection untouched.) -/
theorem filterSupportedFiles_spec (l : List JsFile) :
    (filterSupportedFiles l).Sublist l ∧
    (∀ f, f ∈ filterSupportedFiles l ↔ f ∈ l ∧ doesSupportFileType f = true) ∧
    (∀ f, (filterSupportedFiles l).count f
        = if doesSupportFileType f then l.count f else 0) ∧
    filterSupportedFiles (filterSupportedFiles l) = filterSupportedFiles l := by
  refine ⟨List.filter_sublist l, fun f => ?_, fun f => ?_, ?_⟩
  · simp [filterSupportedFiles, List.mem_filter]
  · by_cases hp : doesSupportFileType f
    · simp only [filterSupportedFiles, if_pos hp]
      exact List.count_filter (by simpa using hp)
    · simp only [filterSupportedFiles, if_neg hp]
      refine List.count_eq_zero.mpr (fun hmem => hp ?_)
      simpa using (List.mem_filter.mp hmem).2
  · simp [filterSupportedFiles, List.filter_filter]

/-- C8: `downloadFile` always fulfils its promise; a fetch/read failure is
caught by the handler (which only logs) and never propagates to the caller. -/
theorem downloadFile_always_resolves (env : DlEnv) (file : ConvertedFile)
    (s : UrlState) :
    exceptIsOk ((downloadFile env file s).1.1) = true := by
  unfold downloadFile
  cases h : env.fetchBlob file.convertedUrl <;> simp [exceptIsOk]

/-- C9 (counterexample): a successful conversion leaves TWO live handles,
not one — the transient decode-source handle assigned to `img.src` is never
revoked, so it stays allocated alongside the result handle. -/
theorem convertImage_handle_count_counterexample :
    exceptIsOk ((convertImage envAllOk { name := "a.png", type := "image/png", size := 5 }
      ImageFormat.png { counter := 0, live := [] }).1) = true ∧
    ((convertImage envAllOk { name := "a.png", type := "image/png", size := 5 }
      ImageFormat.png { counter := 0, live := [] }).2).live.length = 2 := by
  decide

/-- C9 (amended): every successful `convertImage` call allocates exactly
two temporary handles — first the transient decode-source handle (which the
routine never releases) and then the result handle returned to the caller —
and both are still live when the call returns. -/
theorem convertImage_allocates_two_handles (env : Env) (file : JsFile)
    (t : ImageFormat) (s : UrlState) (r : ConvResult) (s' : UrlState)
    (hok : convertImage env file t s = (Except.ok r, s')) :
    s'.live = s.live ++ [mkUrl s.counter, mkUrl (s.counter + 1)] ∧
    r.url = mkUrl (s.counter + 1) ∧
    s'.counter = s.counter + 2 :=
  ⟨(convertImage_ok_shape hok).2.1, (convertImage_ok_shape hok).1,
   (convertImage_ok_shape hok).2.2⟩

/-- C9 (witness): the amended statement at a concrete succeeding run. -/
theorem convertImage_allocates_two_handles_witness :
    ({ counter := 2, live := [mkUrl 0, mkUrl 1] } : UrlState).live
        = ({ counter := 0, live := [] } : UrlState).live
          ++ [mkUrl ({ counter := 0, live := ([] : List String) } : UrlState).counter,
              mkUrl (({ counter := 0, live := ([] : List String) } : UrlState).counter + 1)] ∧
    ({ url := mkUrl 1, size := 9 } : ConvResult).url
        = mkUrl (({ counter := 0, live := ([] : List String) } : UrlState).counter + 1) ∧
    ({ counter := 2, live := [mkUrl 0, mkUrl 1] } : UrlState).counter
        = ({ counter := 0, live := ([] : List String) } : UrlState).counter + 2 :=
  convertImage_allocates_two_handles envAllOk
    { name := "a.png", type := "image/png", size := 5 } ImageFormat.png
    { counter := 0, live := [] } { url := mkUrl 1, size := 9 }
    { counter := 2, live := [mkUrl 0, mkUrl 1] } (by rfl)

/-- C10: every `downloadFile` call whose fetch of the converted bytes
succeeds allocates exactly one additional object URL which stays live
(`downloadFile` issues no revocation), and the transient anchor element is
both appended and removed. -/
theorem downloadFile_leaks_one_handle (env : DlEnv) (file : ConvertedFile)
    (s : UrlState) (blob : JsBlob)
    (hfetch : env.fetchBlob file.convertedUrl = Except.ok blob) :
    (downloadFile env file s).1.2.live = s.live ++ [mkUrl s.counter] ∧
    ((downloadFile env file s).2.filter (fun a =>
      match a with
      | DlAction.revokeUrl _ => true
      | _ => false)) = [] ∧
    DlAction.appendAnchor ∈ (downloadFile env file s).2 ∧
    DlAction.removeAnchor ∈ (downloadFile env file s).2 := by
  unfold downloadFile createObjectURL
  rw [hfetch]
  simp

/-- C10 (witness): the statement at a concrete succeeding download. -/
theorem downloadFile_leaks_one_handle_witness :
    (downloadFile dlEnvOk sampleRecord { counter := 0, live := [] }).1.2.live
        = ([] : List String) ++ [mkUrl 0] ∧
    ((downloadFile dlEnvOk sampleRecord { counter := 0, live := [] }).2.filter (fun a =>
      match a with
      | DlAction.revokeUrl _ => true
      | _ => false)) = [] ∧
    DlAction.appendAnchor ∈ (downloadFile dlEnvOk sampleRecord { counter := 0, live := [] }).2 ∧
    DlAction.removeAnchor ∈ (downloadFile dlEnvOk sampleRecord { counter := 0, live := [] }).2 :=
  downloadFile_leaks_one_handle dlEnvOk sampleRecord { counter := 0, live := [] }
    { size := 7, type := "image/jpeg" } (by rfl)

/-- C1: the conversion promise rejects (with a ConversionError) exactly
when decoding the file into a drawable bitmap fails — including an SVG
text-read failure — or when encoding the surface yields no data; and a
failed conversion never produces a tracking-record update: the caller
filters the freshly created record out again, so the record list is exactly
what it was before and no success fields are ever written. -/
theorem convertImage_failure_spec (env : Env) (file : JsFile) (t : ImageFormat)
    (s : UrlState) (files : List ConvertedFile) (id : String)
    (hfresh : ∀ g ∈ files, g.id ≠ id) :
    (exceptIsError ((convertImage env file t s).1) = true ↔
      (decodedBitmap env file = none ∨ encodedBlob env file t = none)) ∧
    (exceptIsError ((convertImage env file t s).1) = true →
      (processFile env t id files s file).1 = files) := by
  constructor
  · rw [convertImage_fst_isError]
    constructor
    · exact Or.inr
    · rintro (hd | he)
      · simp [encodedBlob, hd]
      · exact he
  · intro herr
    have herr1 : exceptIsError ((convertImage env file t
        (createConvertedFileRecord id file t s).2).1) = true :=
      (convertImage_fst_isError env file t _).mpr
        ((convertImage_fst_isError env file t s).mp herr)
    unfold processFile
    dsimp only
    split
    next result s2 heq =>
      rw [heq] at herr1
      simp [exceptIsError] at herr1
    next e s2 heq =>
      dsimp only
      rw [List.filter_append]
      have hrecid : ((createConvertedFileRecord id file t s).1).id = id := rfl
      have h1 : files.filter
          (fun f => f.id ≠ ((createConvertedFileRecord id file t s).1).id) = files := by
        refine List.filter_eq_self.mpr (fun g hg => ?_)
        simp [hrecid, hfresh g hg]
      have h2 : [(createConvertedFileRecord id file t s).1].filter
          (fun f => f.id ≠ ((createConvertedFileRecord id file t s).1).id) = [] := by
        simp
      rw [h1, h2, List.append_nil]

/-- C1 (witness): a run whose decoder rejects: the conversion fails and
the caller's list is unchanged afterwards. -/
theorem convertImage_failure_spec_witness :
    (exceptIsError ((convertImage envDecodeFail
        { name := "bad.png", type := "image/png", size := 3 } ImageFormat.jpg
        { counter := 0, live := [] }).1) = true ↔
      (decodedBitmap envDecodeFail { name := "bad.png", type := "image/png", size := 3 } = none ∨
       encodedBlob envDecodeFail { name := "bad.png", type := "image/png", size := 3 }
         ImageFormat.jpg = none)) ∧
    (exceptIsError ((convertImage envDecodeFail
        { name := "bad.png", type := "image/png", size := 3 } ImageFormat.jpg
        { counter := 0, live := [] }).1) = true →
      (processFile envDecodeFail ImageFormat.jpg "a" [] { counter := 0, live := [] }
        { name := "bad.png", type := "image/png", size := 3 }).1 = []) :=
  convertImage_failure_spec envDecodeFail
    { name := "bad.png", type := "image/png", size := 3 } ImageFormat.jpg
    { counter := 0, live := [] } [] "a"
    (fun g hg => absurd hg (List.not_mem_nil g))

/-- C7: in every record-list state reachable by admitting files, applying
conversion-success updates, and discarding records, every record satisfies
the invariant: `isConverting` is true exactly when `convertedUrl` is empty.
Fresh records start true with an empty handle; a success update writes a
non-empty handle (object URLs are never empty) and clears the flag in the
same step; discarding only removes records. -/
theorem tracking_record_invariant (env : Env) (files : List ConvertedFile)
    (hreach : ReachableFiles env files) :
    ∀ f ∈ files, (f.isConverting = true ↔ f.convertedUrl = "") := by
  induction hreach with
  | nil =>
    intro f hf
    exact absurd hf (List.not_mem_nil f)
  | step hr hstep ih =>
    cases hstep with
    | admitted file t id s =>
      intro f hf
      rcases List.mem_append.mp hf with h | h
      · exact ih f h
      · rw [List.mem_singleton.mp h]
        simp [createConvertedFileRecord]
    | convertSuccess file t s s' i r hok =>
      intro f hf
      rcases List.mem_map.mp hf with ⟨g, hg, rfl⟩
      by_cases hid : g.id = i
      · rw [if_pos hid]
        simp [(convertImage_ok_shape hok).1, mkUrl_ne_empty]
      · rw [if_neg hid]
        exact ih g hg
    | discard i =>
      intro f hf
      exact ih f (List.mem_filter.mp hf).1

/-- C7 (witness): the invariant at the concrete one-admission state. -/
theorem tracking_record_invariant_witness :
    ((createConvertedFileRecord "id0" { name := "a.png", type := "image/png", size := 7 }
        ImageFormat.jpg { counter := 0, live := [] }).1.isConverting = true ↔
     (createConvertedFileRecord "id0" { name := "a.png", type := "image/png", size := 7 }
        ImageFormat.jpg { counter := 0, live := [] }).1.convertedUrl = "") :=
  tracking_record_invariant envAllOk
    ([] ++ [(createConvertedFileRecord "id0" { name := "a.png", type := "image/png", size := 7 }
        ImageFormat.jpg { counter := 0, live := [] }).1])
    (ReachableFiles.step ReachableFiles.nil
      (RecStep.admitted [] { name := "a.png", type := "image/png", size := 7 } ImageFormat.jpg
        "id0" { counter := 0, live := [] }))
    _ (by simp)
